import Mathlib

set_option autoImplicit false

namespace MediaSearch

/-!
Shallow embedding of the `gcp-go-media-search` backend pieces that the
claims address: the chain-of-responsibility context and chain
(`internal/core/cor`), the quota-aware generative-model wrapper
(`internal/cloud/wrappers.go`), the multimodal generation helper
(`internal/cloud/gcs.go`), the Pub/Sub listener ack decision
(`internal/cloud/state.go`), the embedding generator workflow
(`internal/core/workflow/media_embedding_generator_workflow.go`), the
scene extractor (worker pool) and the search service
(`internal/core/services/search.go`).
-/

/-! ### Go map primitives (association-list model of `map[string]V`) -/

/-- Go map assignment `m[k] = v`: replace the binding if present, else append. -/
def putAssoc {α : Type} (m : List (String × α)) (k : String) (v : α) : List (String × α) :=
  match m with
  | [] => [(k, v)]
  | (k', v') :: rest => if k' = k then (k, v) :: rest else (k', v') :: putAssoc rest k v

/-- Go map lookup `m[k]` (`nil` when absent becomes `none`). -/
def getAssoc {α : Type} (m : List (String × α)) (k : String) : Option α :=
  match m with
  | [] => none
  | (k', v') :: rest => if k' = k then some v' else getAssoc rest k

/-- Go `delete(m, k)`. -/
def removeAssoc {α : Type} (m : List (String × α)) (k : String) : List (String × α) :=
  match m with
  | [] => []
  | (k', v') :: rest => if k' = k then removeAssoc rest k else (k', v') :: removeAssoc rest k

theorem getAssoc_putAssoc_self {α : Type} (m : List (String × α)) (k : String) (v : α) :
    getAssoc (putAssoc m k v) k = some v := by
  induction m with
  | nil => simp [putAssoc, getAssoc]
  | cons hd tl ih =>
    obtain ⟨k', v'⟩ := hd
    by_cases h : k' = k <;> simp [putAssoc, getAssoc, h, ih]

theorem getAssoc_putAssoc_ne {α : Type} (m : List (String × α)) (k k' : String) (v : α)
    (h : k ≠ k') : getAssoc (putAssoc m k v) k' = getAssoc m k' := by
  induction m with
  | nil => simp [putAssoc, getAssoc, h]
  | cons hd tl ih =>
    obtain ⟨k0, v0⟩ := hd
    by_cases h0 : k0 = k
    · subst h0
      simp [putAssoc, getAssoc, h]
    · by_cases h1 : k0 = k'
      · subst h1
        simp [putAssoc, getAssoc, h0]
      · simp [putAssoc, getAssoc, h0, h1, ih]

theorem getAssoc_removeAssoc_self {α : Type} (m : List (String × α)) (k : String) :
    getAssoc (removeAssoc m k) k = none := by
  induction m with
  | nil => simp [removeAssoc, getAssoc]
  | cons hd tl ih =>
    obtain ⟨k', v'⟩ := hd
    by_cases h : k' = k <;> simp [removeAssoc, getAssoc, h, ih]

theorem getAssoc_removeAssoc_ne {α : Type} (m : List (String × α)) (k k' : String)
    (h : k ≠ k') : getAssoc (removeAssoc m k) k' = getAssoc m k' := by
  induction m with
  | nil => simp [removeAssoc, getAssoc]
  | cons hd tl ih =>
    obtain ⟨k0, v0⟩ := hd
    by_cases h0 : k0 = k
    · subst h0
      simp [removeAssoc, getAssoc, h, ih]
    · by_cases h1 : k0 = k'
      · subst h1
        simp [removeAssoc, getAssoc, h0]
      · simp [removeAssoc, getAssoc, h0, h1, ih]

/-! ### `cor.Context` (base_context.go)

`BaseContext` carries a `data` map (`Add`/`Get`/`Remove`), an `errors` map
keyed by command name (`AddError`/`GetErrors`/`HasErrors`).  Temp files and
the Go `context.Context` are irrelevant to the claims and omitted; the span
plumbing of the chain is recorded separately in the execution trace. -/

structure CorCtx (α : Type) where
  data : List (String × α)
  errors : List (String × String)
  deriving DecidableEq

/-- `BaseContext.Add` -/
def CorCtx.add {α : Type} (c : CorCtx α) (k : String) (v : α) : CorCtx α :=
  { c with data := putAssoc c.data k v }

/-- `BaseContext.Get` (`nil` becomes `none`) -/
def CorCtx.get {α : Type} (c : CorCtx α) (k : String) : Option α :=
  getAssoc c.data k

/-- `BaseContext.Remove` -/
def CorCtx.remove {α : Type} (c : CorCtx α) (k : String) : CorCtx α :=
  { c with data := removeAssoc c.data k }

/-- `BaseContext.AddError` -/
def CorCtx.addError {α : Type} (c : CorCtx α) (k : String) (e : String) : CorCtx α :=
  { c with errors := putAssoc c.errors k e }

/-- `BaseContext.HasErrors`: true iff the error map is non-empty. -/
def CorCtx.hasErrors {α : Type} (c : CorCtx α) : Bool :=
  !c.errors.isEmpty

/-- `cor.NewBaseContext()` -/
def newBaseContext (α : Type) : CorCtx α := { data := [], errors := [] }

/-- The context-parameter constants of `cor` (part_001). -/
def CtxIn : String := "__IN__"

def CtxOut : String := "__OUT__"

/-! ### `cor.Command` and `cor.BaseChain` (base_chain.go)

A command is modelled by its name, its `IsExecutable` predicate and its
`Execute` action on the shared context (real commands mutate the shared
`cor.Context`; here that is explicit state passing). -/

structure Command (α : Type) where
  name : String
  isExecutable : CorCtx α → Bool
  execute : CorCtx α → CorCtx α

/-- Final status a per-command OpenTelemetry span ends with in
`BaseChain.Execute`: `skipped` is the Error status "previous error on chain;
skipping execution" set on the break-out branch; otherwise the span ends
with Error ("error during or after command execution") or Ok. -/
inductive SpanStatus
  | skipped
  | errored
  | okStatus
  deriving DecidableEq

/-- Trace record for one command span opened by `BaseChain.Execute`.
A record exists exactly when the loop body opened a span for the command;
commands never reached (after the `break`) have no record. -/
structure StepRec (α : Type) where
  name : String
  /-- shared context when the command's span was opened -/
  ctxStart : CorCtx α
  /-- whether `command.Execute` was called -/
  executed : Bool
  /-- result of `command.IsExecutable` (false on the skipped branch, unused there) -/
  runnable : Bool
  status : SpanStatus
  /-- whether the flip-flop piping code ran for this iteration -/
  piped : Bool
  /-- context after the execute/not-executable step, before piping
  (equals `ctxStart` on the skipped branch) -/
  ctxPostExec : CorCtx α
  /-- context at the end of this iteration (after piping; equals
  `ctxStart` on the skipped branch) -/
  ctxEnd : CorCtx α
  deriving DecidableEq

/-- The flip-flop piping at the bottom of the loop body:
`outputValue := Get(CtxOut); Remove(CtxIn); if outputValue != nil
{ Add(CtxIn, outputValue) }; Remove(CtxOut)`. -/
def pipeCtx {α : Type} (c : CorCtx α) : CorCtx α :=
  let outputValue := c.get CtxOut
  let c1 := c.remove CtxIn
  let c2 := match outputValue with
    | some v => c1.add CtxIn v
    | none => c1
  c2.remove CtxOut

/-- The command loop of `BaseChain.Execute`.  Returns the per-command span
trace and the final shared context.  On the branch
`HasErrors && !continueOnFailure` the span is opened, marked skipped,
closed, and the loop breaks (no recursion on the remaining commands). -/
def chainLoop {α : Type} (continueOnFailure : Bool) :
    List (Command α) → CorCtx α → List (StepRec α) × CorCtx α
  | [], ctx => ([], ctx)
  | cmd :: rest, ctx =>
    if ctx.hasErrors && !continueOnFailure then
      ([{ name := cmd.name, ctxStart := ctx, executed := false, runnable := false,
          status := .skipped, piped := false, ctxPostExec := ctx, ctxEnd := ctx }], ctx)
    else
      let runnable := cmd.isExecutable ctx
      let ctx1 := if runnable then cmd.execute ctx else ctx
      let status : SpanStatus := if ctx1.hasErrors then .errored else .okStatus
      let ctx2 := pipeCtx ctx1
      let restRun := chainLoop continueOnFailure rest ctx2
      ({ name := cmd.name, ctxStart := ctx, executed := runnable, runnable := runnable,
         status := status, piped := true, ctxPostExec := ctx1, ctxEnd := ctx2 } :: restRun.1,
       restRun.2)

/-- `BaseChain.Execute`: runs the loop and reports the chain span's final
status (`Ok` iff the context has no errors at the end). -/
def chainExecute {α : Type} (continueOnFailure : Bool) (commands : List (Command α))
    (ctx : CorCtx α) : List (StepRec α) × CorCtx α × Bool :=
  let run := chainLoop continueOnFailure commands ctx
  (run.1, run.2, !run.2.hasErrors)

/-! ### Concrete chains used to evaluate the claims -/

/-- A command that records an error on the shared context. -/
def exCmdErr : Command Nat :=
  { name := "c0", isExecutable := fun _ => true,
    execute := fun c => c.addError "c0" "boom" }

/-- A command that does nothing to the shared context. -/
def exCmdNop (n : String) : Command Nat :=
  { name := n, isExecutable := fun _ => true, execute := fun c => c }

/-- Three-command chain whose first command fails, run with
`continueOnFailure = false` on a fresh context. -/
def exRecs : List (StepRec Nat) :=
  (chainLoop false [exCmdErr, exCmdNop "c1", exCmdNop "c2"] (newBaseContext Nat)).1

/-- `PubSubListener.Listen` (state.go): per-message outcome. -/
inductive AckAction
  | acked
  | nacked
  | neither
  deriving DecidableEq

/-- One message's journey through the `Receive` callback of
`PubSubListener.Listen` (state.go): a fresh chain context is created, the
message data is stored under `__IN__`, the listener's command executes, and
the message is acknowledged iff the context has no errors; on errors
neither `Ack` nor `Nack` is called (the subscription's ack deadline
redelivers). -/
def pubSubHandleMessage {α : Type} (command : Command α) (msgData : α) :
    AckAction × CorCtx α :=
  let chainCtx := (newBaseContext α).add CtxIn msgData
  let afterCtx := command.execute chainCtx
  if afterCtx.hasErrors then (.neither, afterCtx) else (.acked, afterCtx)

/-! ### `QuotaAwareGenerativeAIModel` (cloud/wrappers.go) -/

/-- The token-bucket limiter held by the wrapper.  `NewQuotaAwareModel`
builds it with `rate.NewLimiter(rate.Every(time.Second/1), requestsPerSecond)`:
`rate.Every(1 s)` is a refill rate of 1 token per second, and
`requestsPerSecond` is the burst capacity. -/
structure RateLimiter where
  /-- tokens added per second (`rate.Every(time.Second/1)` = 1). -/
  limitPerSecond : Nat
  /-- bucket capacity (`requestsPerSecond` argument). -/
  burst : Nat
  deriving DecidableEq

/-- The wrapper struct (generation config and the raw model handle carry no
behaviour relevant to the claims beyond the name). -/
structure QuotaAwareGenerativeAIModel where
  modelName : String
  rateLimit : RateLimiter
  deriving DecidableEq

/-- `NewQuotaAwareModel` (wrappers.go). -/
def NewQuotaAwareModel (name : String) (requestsPerSecond : Nat) :
    QuotaAwareGenerativeAIModel :=
  { modelName := name,
    rateLimit := { limitPerSecond := 1, burst := requestsPerSecond } }

/-- One non-blocking `Allow()` on a bucket with `tokens` tokens and no time
elapsed: granted iff a token is available, consuming it. -/
def allowOne (tokens : Nat) : Bool × Nat :=
  if tokens > 0 then (true, tokens - 1) else (false, tokens)

/-- Outcomes of `n` back-to-back `Allow()` calls starting from `tokens`
tokens (no refill in between: the calls are instantaneous). -/
def allowRun : Nat → Nat → List Bool
  | _, 0 => []
  | tokens, n + 1 =>
    let a := allowOne tokens
    a.1 :: allowRun a.2 n

/-- Outcomes of `n` instantaneous `Allow()` calls on a freshly built
limiter (bucket starts full at `burst`). -/
def allowCalls (lim : RateLimiter) (n : Nat) : List Bool :=
  allowRun lim.burst n

/-- Observable events of one `GenerateContent` invocation on the wrapper. -/
inductive GenEvent
  | limiterCheck (granted : Bool)
  | sleepSeconds (n : Nat)
  /-- a call to the raw `ModelHandle.GenerateContent`, tagged with the
  `retry` value carried by the context it receives (`none` when absent). -/
  | underlyingCall (ctxRetry : Option Nat)
  deriving DecidableEq

structure GenerateOutcome where
  events : List GenEvent
  result : Except String String

/-- `QuotaAwareGenerativeAIModel.GenerateContent` (wrappers.go).
`allow` is the outcome of the non-blocking `RateLimit.Allow()`;
`underlying k` is the result of the `k`-th raw `ModelHandle.GenerateContent`
call made during this invocation; `ctxRetry` is the `retry` value carried
by the ambient context (`none` when absent).

Source behaviour: when allowed, call the raw model; on failure read the
retry count from the context (0 when absent), fail with
"failed generation on max retries" when it exceeds 3, otherwise sleep one
minute and make one direct raw-model call with the incremented-retry
context (`q.ModelHandle.GenerateContent(errCtx, ...)`) and return its
result.  When denied, sleep 5 seconds and make one direct raw-model call
with the original context.  Neither path re-enters the wrapper. -/
def generateContent (allow : Bool) (underlying : Nat → Except String String)
    (ctxRetry : Option Nat) : GenerateOutcome :=
  if allow then
    match underlying 0 with
    | .ok r =>
      { events := [.limiterCheck true, .underlyingCall ctxRetry], result := .ok r }
    | .error _ =>
      let retryCount := ctxRetry.getD 0
      if retryCount > 3 then
        { events := [.limiterCheck true, .underlyingCall ctxRetry],
          result := .error "failed generation on max retries" }
      else
        { events := [.limiterCheck true, .underlyingCall ctxRetry, .sleepSeconds 60,
            .underlyingCall (some (retryCount + 1))],
          result := underlying 1 }
  else
    { events := [.limiterCheck false, .sleepSeconds 5, .underlyingCall ctxRetry],
      result := underlying 0 }

/-! ### `GenerateMultiModalResponse` (cloud/gcs.go) -/

/-- `MaxRetries` constant of package cloud (gcs.go). -/
def MaxRetries : Nat := 3

/-- One candidate of a genai response; `content` is `none` when
`candidate.Content == nil`, otherwise the texts of its parts. -/
structure GenaiCandidate where
  content : Option (List String)

/-- The parts of a `genai.GenerateContentResponse` that
`GenerateMultiModalResponse` reads. -/
structure GenaiResponse where
  promptTokenCount : Nat
  candidatesTokenCount : Nat
  candidates : List GenaiCandidate

/-- The OpenTelemetry counters threaded through the helper. -/
structure TelemetryCounters where
  inputTokens : Nat
  outputTokens : Nat
  retries : Nat
  deriving DecidableEq

/-- Go `strings.TrimPrefix`: drop `tag` from the front when present. -/
def goTrimLeading (s tag : String) : String :=
  if s.startsWith tag then s.drop tag.length else s

/-- Go `strings.TrimSuffix`: drop `tag` from the back when present. -/
def goTrimTrailing (s tag : String) : String :=
  if s.endsWith tag then s.dropRight tag.length else s

/-- Concatenate the parts of all candidates with non-nil content, then trim
the markdown fences, exactly as the success path of
`GenerateMultiModalResponse` does. -/
def respToValue (resp : GenaiResponse) : String :=
  let value := String.join (resp.candidates.map fun c =>
    match c.content with
    | some parts => String.join parts
    | none => "")
  goTrimTrailing (goTrimLeading value "```json") "```"

/-- `GenerateMultiModalResponse` (gcs.go).  `model k` is the outcome of the
`k`-th `model.GenerateContent` call of this invocation chain; the recursion
carries the attempt number `tryCount` and the telemetry counters.  On an
error with `tryCount < MaxRetries` the retry counter is bumped and the
helper recurses with `tryCount + 1`; once `tryCount` reaches `MaxRetries`
the model's error is returned.  On success the token counters are bumped
and the concatenated, fence-trimmed text is returned. -/
def GenerateMultiModalResponse (model : Nat → Except String GenaiResponse)
    (callIdx : Nat) (tryCount : Nat) (st : TelemetryCounters) :
    TelemetryCounters × Except String String :=
  match model callIdx with
  | .error e =>
    if tryCount < MaxRetries then
      GenerateMultiModalResponse model (callIdx + 1) (tryCount + 1)
        { st with retries := st.retries + 1 }
    else
      (st, .error e)
  | .ok resp =>
    ({ st with inputTokens := st.inputTokens + resp.promptTokenCount,
               outputTokens := st.outputTokens + resp.candidatesTokenCount },
     .ok (respToValue resp))
  termination_by MaxRetries - tryCount
  decreasing_by simp only [MaxRetries] at *; omega

/-! ### `MediaEmbeddingGeneratorWorkflow` (workflow/media_embedding_generator_workflow.go) -/

structure Scene where
  sequenceNumber : Nat
  script : String
  deriving DecidableEq

structure Media where
  id : String
  scenes : List Scene
  deriving DecidableEq

/-- `model.SceneEmbedding` as populated by the workflow. -/
structure SceneEmbedding where
  mediaId : String
  sequenceNumber : Nat
  modelName : String
  embeddings : List Int
  deriving DecidableEq

/-- State the workflow's `Execute` affects: batches written through
`inserter.Put` (one per Media) and the chain context's error map. -/
structure EmbedWorkflowState where
  insertedBatches : List (List SceneEmbedding)
  errors : List (String × String)
  deriving DecidableEq

/-- The batch built for one Media: one `SceneEmbedding` per scene, holding
the flattened values of the embedding response for the scene's script
(`embedFn` stands for `genaiEmbedding.EmbedContent`; its error return is
checked against the iterator's `err`, which is nil at that point, so it
never aborts the loop). -/
def mediaBatch (modelName : String) (embedFn : String → List (List Int))
    (m : Media) : List SceneEmbedding :=
  m.scenes.map fun scene =>
    { mediaId := m.id, sequenceNumber := scene.sequenceNumber,
      modelName := modelName, embeddings := (embedFn scene.script).flatten }

/-- The media loop of `MediaEmbeddingGeneratorWorkflow.Execute`: for each
eligible Media build its batch and `Put` it; on a `Put` error add the error
to the context under the workflow's name and **return** (the remaining
media of this tick are not visited). -/
def mediaEmbeddingLoop (name modelName : String)
    (embedFn : String → List (List Int))
    (putResult : List SceneEmbedding → Option String) :
    List Media → EmbedWorkflowState → EmbedWorkflowState
  | [], st => st
  | m :: rest, st =>
    let toInsert := mediaBatch modelName embedFn m
    match putResult toInsert with
    | some e => { st with errors := putAssoc st.errors name e }
    | none =>
      mediaEmbeddingLoop name modelName embedFn putResult rest
        { st with insertedBatches := st.insertedBatches ++ [toInsert] }

/-- `MediaEmbeddingGeneratorWorkflow.Execute`: read the eligible-media
query (an error is recorded and stops the run), then run the media loop. -/
def mediaEmbeddingExecute (name modelName : String)
    (embedFn : String → List (List Int))
    (putResult : List SceneEmbedding → Option String)
    (queryResult : Except String (List Media)) (st : EmbedWorkflowState) :
    EmbedWorkflowState :=
  match queryResult with
  | .error e => { st with errors := putAssoc st.errors name e }
  | .ok medias => mediaEmbeddingLoop name modelName embedFn putResult medias st

/-- Concrete tick input: two eligible media. -/
def exMediaA : Media := { id := "A", scenes := [{ sequenceNumber := 1, script := "sA" }] }

def exMediaB : Media := { id := "B", scenes := [{ sequenceNumber := 1, script := "sB" }] }

/-- `inserter.Put` stub failing exactly on media `A`'s batch. -/
def exPutFailA : List SceneEmbedding → Option String := fun b =>
  if b.any (fun e => e.mediaId = "A") then some "insert failed" else none

/-! ### `SceneExtractor` and `sceneWorker` (part_005) -/

/-- What happens to one scene job: `CreateJob` failed (the job carries an
error), the model call failed, or the model returned output `s`. -/
inductive JobOutcome
  | jobFailed (e : String)
  | modelError (e : String)
  | modelOut (s : String)
  deriving DecidableEq

/-- `SceneResponse` (part_005): a worker's message on the results channel. -/
structure SceneResponse where
  value : String
  err : Option String
  deriving DecidableEq

/-- `sceneWorker` (part_005), processing its jobs in order: a job-carried
error or a model error is sent as an error response; model output is sent
only when non-empty after `strings.TrimSpace` and not the literal `"{}"`
(filtered output produces no response at all). -/
def sceneWorker : List JobOutcome → List SceneResponse
  | [] => []
  | .jobFailed e :: rest => { value := "", err := some e } :: sceneWorker rest
  | .modelError e :: rest => { value := "", err := some e } :: sceneWorker rest
  | .modelOut s :: rest =>
    if 0 < s.trim.length ∧ s ≠ "{}" then
      { value := s, err := none } :: sceneWorker rest
    else
      sceneWorker rest

/-- State touched by the aggregation loop of `SceneExtractor.Execute`. -/
structure ExtractorState where
  sceneData : List String
  errors : List (String × String)
  errorCount : Nat
  successCount : Nat
  deriving DecidableEq

/-- The `for r := range results` aggregation loop of
`SceneExtractor.Execute`: an error response bumps the error counter and
`AddError`s under the extractor's name; a success response appends its
value to the scene-data list. -/
def aggregateResults (name : String) :
    List SceneResponse → ExtractorState → ExtractorState
  | [], st => st
  | r :: rest, st =>
    match r.err with
    | some e =>
      aggregateResults name rest
        { st with errorCount := st.errorCount + 1,
                  errors := putAssoc st.errors name e }
    | none =>
      aggregateResults name rest { st with sceneData := st.sceneData ++ [r.value] }

/-- `SceneExtractor.Execute` after the workers drained the jobs: aggregate
the responses on a fresh context, then bump the success counter iff the
context has no errors.  (`sceneData` is finally stored under the output
parameter and `__OUT__`.) -/
def sceneExtractorExecute (name : String) (outcomes : List JobOutcome) :
    ExtractorState :=
  let st := aggregateResults name (sceneWorker outcomes)
    { sceneData := [], errors := [], errorCount := 0, successCount := 0 }
  if st.errors.isEmpty then { st with successCount := st.successCount + 1 } else st

/-- The worker errors of a job list, in processing order. -/
def workerErrors : List JobOutcome → List String
  | [] => []
  | .jobFailed e :: rest => e :: workerErrors rest
  | .modelError e :: rest => e :: workerErrors rest
  | .modelOut _ :: rest => workerErrors rest

/-- Spec-side characterisation of the aggregated scene data: exactly the
model outputs that are non-empty after trimming and not `"{}"`. -/
def keptSceneData : List JobOutcome → List String
  | [] => []
  | .jobFailed _ :: rest => keptSceneData rest
  | .modelError _ :: rest => keptSceneData rest
  | .modelOut s :: rest =>
    if 0 < s.trim.length ∧ s ≠ "{}" then s :: keptSceneData rest
    else keptSceneData rest

/-! ### `SearchService.FindScenes` (services/search.go) -/

/-- `model.SceneMatchResult`: one row of the KNN vector-search query. -/
structure SceneMatchResult where
  mediaId : String
  sequenceNumber : Nat
  deriving DecidableEq

/-- What `FindScenes` produces: the rows, the named error return, and
whether the "Fatal error when creating embeddings" print ran. -/
structure FindScenesResult where
  out : List SceneMatchResult
  err : Option String
  printedFatal : Bool
  deriving DecidableEq

/-- The `itr.Next` loop of `FindScenes`: append rows until `iterator.Done`
(end of list); a row error returns the rows collected so far with a
wrapped error. -/
def iterateRows :
    List (Except String SceneMatchResult) → List SceneMatchResult × Option String
  | [] => ([], none)
  | .ok r :: rest =>
    let t := iterateRows rest
    (r :: t.1, t.2)
  | .error e :: _ => ([], some ("failed to iterate results: " ++ e))

/-- How a `FindScenes` call ends: a Go runtime panic, or a normal return.
`panicked` carries whether the embedding fatal print had run before the
panic. -/
inductive FindScenesOutcome
  | panicked (printedFatal : Bool) (msg : String)
  | returned (r : FindScenesResult)
  deriving DecidableEq

/-- `SearchService.FindScenes` (search.go).  `embedResult` is the outcome
of the `EmbedContent` call: on failure the response `searchEmbeddings` is
nil, on success it carries the value lists of `searchEmbeddings.Embeddings`
(the float values only feed the query string, so their numeric type is
immaterial).  `queryRead` is the outcome of `q.Read` with, on success, the
row outcomes of the iterator.

The error check after `EmbedContent` inspects the *named return* `err`,
which is still nil at that point — not `erremb` — so the fatal print never
runs.  When `EmbedContent` failed, the loop over
`searchEmbeddings.Embeddings[0].Values` then dereferences the nil response
and panics before the vector-search query is built or run (likewise an
empty `Embeddings` slice panics on the index).  Only with a non-empty
embedding response does the function build the query and reach `q.Read`. -/
def findScenes (embedResult : Except String (List (List Int)))
    (queryRead : Except String (List (Except String SceneMatchResult))) :
    FindScenesOutcome :=
  let err0 : Option String := none
  let printedFatal := err0.isSome
  match embedResult with
  | .error _ =>
    .panicked printedFatal
      "runtime error: invalid memory address or nil pointer dereference"
  | .ok [] =>
    .panicked printedFatal "runtime error: index out of range [0]"
  | .ok (_ :: _) =>
    match queryRead with
    | .error e =>
      .returned { out := [],
                  err := some ("failed to read from BigQuery: " ++ e),
                  printedFatal := printedFatal }
    | .ok rows =>
      let t := iterateRows rows
      .returned { out := t.1, err := t.2, printedFatal := printedFatal }

/-! ### Structural lemmas about the chain loop -/

theorem chainLoop_cons_skip {α : Type} (cmd : Command α) (rest : List (Command α))
    (ctx : CorCtx α) (h : ctx.hasErrors = true) :
    chainLoop false (cmd :: rest) ctx =
      ([{ name := cmd.name, ctxStart := ctx, executed := false, runnable := false,
          status := .skipped, piped := false, ctxPostExec := ctx, ctxEnd := ctx }], ctx) := by
  simp [chainLoop, h]

theorem chainLoop_cons_run {α : Type} (cof : Bool) (cmd : Command α)
    (rest : List (Command α)) (ctx : CorCtx α) (h : (ctx.hasErrors && !cof) = false) :
    chainLoop cof (cmd :: rest) ctx =
      (({ name := cmd.name, ctxStart := ctx, executed := cmd.isExecutable ctx,
          runnable := cmd.isExecutable ctx,
          status := if (if cmd.isExecutable ctx then cmd.execute ctx else ctx).hasErrors
            then .errored else .okStatus,
          piped := true,
          ctxPostExec := if cmd.isExecutable ctx then cmd.execute ctx else ctx,
          ctxEnd := pipeCtx (if cmd.isExecutable ctx then cmd.execute ctx else ctx) } :
          StepRec α) ::
        (chainLoop cof rest
          (pipeCtx (if cmd.isExecutable ctx then cmd.execute ctx else ctx))).1,
       (chainLoop cof rest
          (pipeCtx (if cmd.isExecutable ctx then cmd.execute ctx else ctx))).2) := by
  simp [chainLoop, h]

/-- The first span record the loop opens (when any) starts from the incoming
context. -/
theorem chainLoop_zero {α : Type} (cof : Bool) (cmds : List (Command α)) (ctx : CorCtx α) :
    ∀ r : StepRec α, ((chainLoop cof cmds ctx).1)[0]? = some r → r.ctxStart = ctx := by
  intro r hr
  cases cmds with
  | nil => simp [chainLoop] at hr
  | cons cmd rest =>
    by_cases hE : (ctx.hasErrors && !cof) = true
    · simp [chainLoop, hE] at hr
      rw [← hr]
    · rw [chainLoop_cons_run cof cmd rest ctx (by simpa using hE)] at hr
      simp at hr
      rw [← hr]

/-- With `continueOnFailure = false`, a span opened while the context already
has errors is marked skipped, its command is not executed, and the loop
breaks: this record is the last one (no spans for later commands). -/
theorem chainLoop_skip_of_errors {α : Type} (cmds : List (Command α)) (ctx : CorCtx α) :
    ∀ (i : ℕ) (r : StepRec α), ((chainLoop false cmds ctx).1)[i]? = some r →
      r.ctxStart.hasErrors = true →
      r.status = .skipped ∧ r.executed = false ∧
      ((chainLoop false cmds ctx).1).length = i + 1 := by
  induction cmds generalizing ctx with
  | nil => intro i r hr; simp [chainLoop] at hr
  | cons cmd rest ih =>
    intro i r hr hErr
    by_cases hE : ctx.hasErrors = true
    · rw [chainLoop_cons_skip cmd rest ctx hE] at hr ⊢
      match i with
      | 0 =>
        simp at hr
        rw [← hr]
        exact ⟨rfl, rfl, rfl⟩
      | j + 1 => simp at hr
    · rw [chainLoop_cons_run false cmd rest ctx (by simp [Bool.not_eq_true] at hE ⊢; exact hE)]
        at hr ⊢
      match i with
      | 0 =>
        simp at hr
        rw [← hr] at hErr
        simp at hErr
        exact absurd hErr hE
      | j + 1 =>
        simp only [List.getElem?_cons_succ] at hr
        obtain ⟨h1, h2, h3⟩ := ih _ j r hr hErr
        refine ⟨h1, h2, ?_⟩
        simp [h3]

/-- Consecutive span records chain: the later record's starting context is
the earlier record's ending context. -/
theorem chainLoop_chain {α : Type} (cof : Bool) (cmds : List (Command α)) (ctx : CorCtx α) :
    ∀ (i : ℕ) (r rNext : StepRec α), ((chainLoop cof cmds ctx).1)[i]? = some r →
      ((chainLoop cof cmds ctx).1)[i + 1]? = some rNext →
      rNext.ctxStart = r.ctxEnd := by
  induction cmds generalizing ctx with
  | nil => intro i r rNext hr _; simp [chainLoop] at hr
  | cons cmd rest ih =>
    intro i r rNext hr hrN
    by_cases hE : (cof = false) ∧ ctx.hasErrors = true
    · obtain ⟨hc, hctx⟩ := hE
      subst hc
      rw [chainLoop_cons_skip cmd rest ctx hctx] at hr hrN
      match i with
      | 0 => simp at hrN
      | j + 1 => simp at hr
    · have hcond : (ctx.hasErrors && !cof) = false := by
        cases cof <;> cases hhe : ctx.hasErrors <;> simp_all
      rw [chainLoop_cons_run cof cmd rest ctx hcond] at hr hrN
      match i with
      | 0 =>
        simp only [List.getElem?_cons_succ] at hrN
        simp at hr
        have := chainLoop_zero cof rest
          (pipeCtx (if cmd.isExecutable ctx then cmd.execute ctx else ctx)) rNext hrN
        rw [this, ← hr]
      | j + 1 =>
        simp only [List.getElem?_cons_succ] at hr hrN
        exact ih _ j r rNext hr hrN

/-- A span record not produced by the skip/break branch ran the flip-flop
piping: its ending context is `pipeCtx` of its post-execution context. -/
theorem chainLoop_pipe_shape {α : Type} (cof : Bool) (cmds : List (Command α))
    (ctx : CorCtx α) :
    ∀ (i : ℕ) (r : StepRec α), ((chainLoop cof cmds ctx).1)[i]? = some r →
      r.status ≠ .skipped →
      r.piped = true ∧ r.ctxEnd = pipeCtx r.ctxPostExec := by
  induction cmds generalizing ctx with
  | nil => intro i r hr _; simp [chainLoop] at hr
  | cons cmd rest ih =>
    intro i r hr hs
    by_cases hE : (cof = false) ∧ ctx.hasErrors = true
    · obtain ⟨hc, hctx⟩ := hE
      subst hc
      rw [chainLoop_cons_skip cmd rest ctx hctx] at hr
      match i with
      | 0 =>
        simp at hr
        rw [← hr] at hs
        simp at hs
      | j + 1 => simp at hr
    · have hcond : (ctx.hasErrors && !cof) = false := by
        cases cof <;> cases hhe : ctx.hasErrors <;> simp_all
      rw [chainLoop_cons_run cof cmd rest ctx hcond] at hr
      match i with
      | 0 =>
        simp at hr
        rw [← hr]
        exact ⟨rfl, rfl⟩
      | j + 1 =>
        simp only [List.getElem?_cons_succ] at hr
        exact ih _ j r hr hs

/-- Piping never touches the error map. -/
theorem pipeCtx_errors {α : Type} (c : CorCtx α) : (pipeCtx c).errors = c.errors := by
  unfold pipeCtx CorCtx.remove CorCtx.add
  cases c.get CtxOut <;> rfl

/-- After piping, `__IN__` holds exactly the value `__OUT__` held before. -/
theorem pipeCtx_get_in {α : Type} (c : CorCtx α) :
    (pipeCtx c).get CtxIn = c.get CtxOut := by
  unfold pipeCtx
  cases hv : c.get CtxOut with
  | none =>
    simp only [CorCtx.get, CorCtx.remove] at *
    rw [getAssoc_removeAssoc_ne _ CtxOut CtxIn (by decide), getAssoc_removeAssoc_self]
  | some v =>
    simp only [CorCtx.get, CorCtx.remove, CorCtx.add] at *
    rw [getAssoc_removeAssoc_ne _ CtxOut CtxIn (by decide), getAssoc_putAssoc_self]

/-- After piping, `__OUT__` is absent. -/
theorem pipeCtx_get_out {α : Type} (c : CorCtx α) : (pipeCtx c).get CtxOut = none := by
  unfold pipeCtx
  cases hv : c.get CtxOut <;>
    simp only [CorCtx.get, CorCtx.remove, CorCtx.add, getAssoc_removeAssoc_self]

instance {α : Type} : Inhabited (CorCtx α) := ⟨newBaseContext α⟩

instance : Inhabited SpanStatus := ⟨.skipped⟩

instance {α : Type} : Inhabited (StepRec α) :=
  ⟨{ name := "", ctxStart := newBaseContext α, executed := false, runnable := false,
     status := .skipped, piped := false, ctxPostExec := newBaseContext α,
     ctxEnd := newBaseContext α }⟩

/-! ### Claim C1 -/

/-- **C1 (counterexample).** In a three-command chain with
`continueOnFailure = false` whose first command adds an error, only the
spans of commands `c0` and `c1` are ever opened: `c1` is marked skipped and
the loop breaks, so `c2` gets no span at all — refuting the claim that the
spans of *every* subsequent step are opened and closed marked skipped. -/
theorem c1_counterexample :
    (exRecs.map (fun r => (r.name, r.status)) =
      [("c0", SpanStatus.errored), ("c1", SpanStatus.skipped)]) ∧
    ¬ ∃ r ∈ exRecs, r.name = "c2" := by
  decide

/-- **C1 (amended).** With `continue_on_failure = false`, if step *i*
executed and left the context with errors, then no later step executes:
at most one more span is opened — the one of step *i+1*, which is closed
marked skipped with its command unexecuted — and the loop breaks, so steps
*i+2 …* get no spans. -/
theorem c1_skip_on_error {α : Type} (cmds : List (Command α)) (ctx : CorCtx α)
    (i : ℕ) (r : StepRec α)
    (hr : ((chainLoop false cmds ctx).1)[i]? = some r)
    (_hx : r.executed = true)
    (hE : r.ctxEnd.hasErrors = true) :
    ((chainLoop false cmds ctx).1).length ≤ i + 2 ∧
    ∀ rNext : StepRec α, ((chainLoop false cmds ctx).1)[i + 1]? = some rNext →
      rNext.status = .skipped ∧ rNext.executed = false ∧
      ((chainLoop false cmds ctx).1).length = i + 2 := by
  cases hN : ((chainLoop false cmds ctx).1)[i + 1]? with
  | none =>
    have hlen := List.getElem?_eq_none_iff.mp hN
    refine ⟨by omega, ?_⟩
    intro rN h2
    cases h2
  | some rN =>
    have hchain := chainLoop_chain false cmds ctx i r rN hr hN
    have hskip := chainLoop_skip_of_errors cmds ctx (i + 1) rN hN (by rw [hchain]; exact hE)
    obtain ⟨h1, h2, h3⟩ := hskip
    refine ⟨by omega, ?_⟩
    intro rN2 hN2
    cases hN2
    exact ⟨h1, h2, by omega⟩

/-- Witness for `c1_skip_on_error` at the concrete failing chain. -/
theorem c1_skip_on_error_witness :
    exRecs.length ≤ 0 + 2 ∧
    ∀ rNext : StepRec Nat, exRecs[0 + 1]? = some rNext →
      rNext.status = .skipped ∧ rNext.executed = false ∧ exRecs.length = 0 + 2 :=
  c1_skip_on_error [exCmdErr, exCmdNop "c1", exCmdNop "c2"] (newBaseContext Nat) 0
    exRecs.headI (by decide) (by decide) (by decide)

/-! ### Claim C2 -/

/-- A one-command chain started on a context that already has errors:
the single step is handled by the skip/break branch. -/
def exCtxDirty : CorCtx Nat :=
  { data := [(CtxIn, 1), (CtxOut, 2)], errors := [("x", "e")] }

/-- **C2 (counterexample).** When a step is handled by the skip/break
branch, the flip-flop piping does not run: the span of `c1` is opened and
closed marked skipped, yet afterwards `__OUT__` still holds its old value
and `__IN__` was not replaced — refuting the claim that the `__OUT__` →
`__IN__` move and the removals happen after *every* handled step. -/
theorem c2_counterexample :
    ((chainLoop false [exCmdNop "c1"] exCtxDirty).1.map (fun r => (r.name, r.status)) =
      [("c1", SpanStatus.skipped)]) ∧
    (chainLoop false [exCmdNop "c1"] exCtxDirty).2.get CtxOut = some 2 ∧
    (chainLoop false [exCmdNop "c1"] exCtxDirty).2.get CtxIn = some 1 ∧
    ¬ (chainLoop false [exCmdNop "c1"] exCtxDirty).2.get CtxOut = none := by
  decide

/-- **C2 (amended).** For every step whose handling was not cut short by
the skip/break branch, the piping runs: the step's ending context is
`pipeCtx` of its post-execution context, so `__IN__` now holds exactly what
`__OUT__` held when the command finished and `__OUT__` is absent;
consequently the next step (whenever a next span is opened) starts with
`get __IN__` equal to that `__OUT__` value and with `__OUT__` absent. -/
theorem c2_pipe_invariant {α : Type} (cof : Bool) (cmds : List (Command α))
    (ctx : CorCtx α) (i : ℕ) (r : StepRec α)
    (hr : ((chainLoop cof cmds ctx).1)[i]? = some r)
    (hs : r.status ≠ .skipped) :
    r.piped = true ∧
    r.ctxEnd = pipeCtx r.ctxPostExec ∧
    r.ctxEnd.get CtxIn = r.ctxPostExec.get CtxOut ∧
    r.ctxEnd.get CtxOut = none ∧
    ∀ rNext : StepRec α, ((chainLoop cof cmds ctx).1)[i + 1]? = some rNext →
      rNext.ctxStart.get CtxIn = r.ctxPostExec.get CtxOut ∧
      rNext.ctxStart.get CtxOut = none := by
  obtain ⟨hp, he⟩ := chainLoop_pipe_shape cof cmds ctx i r hr hs
  refine ⟨hp, he, ?_, ?_, ?_⟩
  · rw [he, pipeCtx_get_in]
  · rw [he, pipeCtx_get_out]
  · intro rN hN
    have hchain := chainLoop_chain cof cmds ctx i r rN hr hN
    rw [hchain, he]
    exact ⟨pipeCtx_get_in _, pipeCtx_get_out _⟩

/-- Witness for `c2_pipe_invariant` at the concrete failing chain's first
(executed) step. -/
theorem c2_pipe_invariant_witness :
    (exRecs.headI).piped = true ∧
    (exRecs.headI).ctxEnd = pipeCtx (exRecs.headI).ctxPostExec ∧
    (exRecs.headI).ctxEnd.get CtxIn = (exRecs.headI).ctxPostExec.get CtxOut ∧
    (exRecs.headI).ctxEnd.get CtxOut = none ∧
    ∀ rNext : StepRec Nat, exRecs[0 + 1]? = some rNext →
      rNext.ctxStart.get CtxIn = (exRecs.headI).ctxPostExec.get CtxOut ∧
      rNext.ctxStart.get CtxOut = none :=
  c2_pipe_invariant false [exCmdErr, exCmdNop "c1", exCmdNop "c2"] (newBaseContext Nat) 0
    exRecs.headI (by decide) (by decide)

/-! ### Claim C7 -/

/-- **C7.** A message is acknowledged iff the handler chain's context has
no errors after execution; a message is never negatively acknowledged, so
on errors the subscription's ack deadline redelivers. -/
theorem c7_ack_iff_no_errors {α : Type} (command : Command α) (msgData : α) :
    ((pubSubHandleMessage command msgData).1 = .acked ↔
      (pubSubHandleMessage command msgData).2.hasErrors = false) ∧
    (pubSubHandleMessage command msgData).1 ≠ .nacked := by
  cases hB : (command.execute ((newBaseContext α).add CtxIn msgData)).hasErrors <;>
    simp [pubSubHandleMessage, hB]

/-! ### Claim C3 -/

/-- **C3.** Denied limiter acquisition: the wrapper sleeps 5 seconds and
then calls the raw `ModelHandle.GenerateContent` directly with the original
context — the wrapper's `GenerateContent` is *not* re-entered, so limiter
acquisition happens exactly once (the event list holds a single limiter
check, the denied one) and the raw call's result, error included, is
returned as-is with no retry handling.  This contradicts the claim (and the
code's own comments), which say the call recurses into `generate`,
re-entering acquisition. -/
theorem c3_denied_path :
    (generateContent false (fun _ => .error "boom") none).events =
      [.limiterCheck false, .sleepSeconds 5, .underlyingCall none] ∧
    (generateContent false (fun _ => .error "boom") none).result = .error "boom" ∧
    (generateContent false (fun _ => .error "boom") none).events.count
      (.limiterCheck true) = 0 :=
  ⟨rfl, rfl, rfl⟩

/-! ### Claim C4 -/

/-- **C4 (counterexample).** With `requestsPerSecond = 2` the limiter is
built from `rate.Every(time.Second/1)`, a refill rate of 1 request per
second — not 2 — refuting the claimed refill rate `R`. -/
theorem c4_counterexample :
    (NewQuotaAwareModel "gemini-2.0-flash" 2).rateLimit.limitPerSecond = 1 ∧
    ¬ (NewQuotaAwareModel "gemini-2.0-flash" 2).rateLimit.limitPerSecond = 2 := by
  decide

theorem allowRun_exhaust (t : Nat) :
    allowRun t (t + 1) = List.replicate t true ++ [false] := by
  induction t with
  | zero => rfl
  | succ t ih =>
    have hstep : allowRun (t + 1) (t + 1 + 1) =
        (allowOne (t + 1)).1 :: allowRun (allowOne (t + 1)).2 (t + 1) := rfl
    have h1 : allowOne (t + 1) = (true, t) := by simp [allowOne]
    rw [hstep, h1]
    simp [ih, List.replicate_succ]

/-- **C4 (amended).** For every configured requests-per-second value `R`,
the limiter is constructed with refill rate 1 request per second
(`rate.Every(time.Second/1)`) and burst capacity `R`; an instantaneous
burst of `R` `Allow()` calls on the fresh bucket is granted in full while
the `(R+1)`-th is denied, and on the denied path `GenerateContent` sleeps
5 seconds before its raw-model call. -/
theorem c4_limiter_params (name : String) (R : Nat) :
    (NewQuotaAwareModel name R).rateLimit = { limitPerSecond := 1, burst := R } ∧
    allowCalls (NewQuotaAwareModel name R).rateLimit (R + 1) =
      List.replicate R true ++ [false] ∧
    ∀ (u : Nat → Except String String) (ctxRetry : Option Nat),
      (generateContent false u ctxRetry).events =
        [.limiterCheck false, .sleepSeconds 5, .underlyingCall ctxRetry] := by
  exact ⟨rfl, allowRun_exhaust R, fun u ctxRetry => rfl⟩

/-! ### Claim C5 -/

/-- **C5.** Granted limiter, failed underlying call: the wrapper reads the
retry counter from the ambient context (0 when absent) and fails with
"failed generation on max retries" when it exceeds 3; otherwise it sleeps
60 seconds and then calls the raw `ModelHandle.GenerateContent` directly
with the incremented-retry context, returning that call's result as-is —
the wrapper's `GenerateContent` is *not* re-entered, contradicting the
claim (and the code's own comments) that it recurses into `generate`. -/
theorem c5_granted_failure_path :
    (generateContent true (fun _ => .error "boom") none).events =
      [.limiterCheck true, .underlyingCall none, .sleepSeconds 60,
        .underlyingCall (some 1)] ∧
    (generateContent true (fun _ => .error "boom") none).result = .error "boom" ∧
    (generateContent true (fun _ => .error "boom") (some 4)).result =
      .error "failed generation on max retries" ∧
    (generateContent true (fun k => if k = 0 then .error "boom" else .ok "fine")
      none).result = .ok "fine" :=
  ⟨rfl, rfl, rfl, rfl⟩

/-! ### Claim C8 -/

/-- **C8 (counterexample).** Against a model that always fails with error
"boom", the helper surfaces *the model's own error* "boom" after the third
retry — not an error mentioning max retries (the wrapper's
"failed generation on max retries" message never reaches this path). -/
theorem c8_counterexample :
    (GenerateMultiModalResponse (fun _ => .error "boom") 0 0
        { inputTokens := 0, outputTokens := 0, retries := 0 }).2 = .error "boom" ∧
    (GenerateMultiModalResponse (fun _ => .error "boom") 0 0
        { inputTokens := 0, outputTokens := 0, retries := 0 }).2 ≠
      .error "failed generation on max retries" := by
  have h : GenerateMultiModalResponse (fun _ => .error "boom") 0 0
      { inputTokens := 0, outputTokens := 0, retries := 0 } =
      ({ inputTokens := 0, outputTokens := 0, retries := 3 }, .error "boom") := by
    simp [GenerateMultiModalResponse, MaxRetries]
  rw [h]
  refine ⟨rfl, ?_⟩
  intro hc
  simp at hc

/-- **C8 (amended).** Starting at `tryCount = 0` against a model whose
calls all fail with error `e`, the helper increments the retry counter and
recurses exactly while `tryCount < 3` — three retry-counter increments —
and after the third retry surfaces the final model error `e` to the
caller, with the token counters untouched. -/
theorem c8_retry_exhaustion (model : Nat → Except String GenaiResponse) (e : String)
    (st : TelemetryCounters) (hm : ∀ k, model k = .error e) :
    GenerateMultiModalResponse model 0 0 st =
      ({ st with retries := st.retries + 3 }, .error e) := by
  simp [GenerateMultiModalResponse, MaxRetries, hm]

/-- Witness for `c8_retry_exhaustion` at an always-failing model. -/
theorem c8_retry_exhaustion_witness :
    GenerateMultiModalResponse (fun _ => .error "down") 0 0
        { inputTokens := 5, outputTokens := 7, retries := 2 } =
      ({ inputTokens := 5, outputTokens := 7, retries := 2 + 3 }, .error "down") :=
  c8_retry_exhaustion (fun _ => .error "down") "down"
    { inputTokens := 5, outputTokens := 7, retries := 2 } (fun _ => rfl)

/-! ### Claim C6 -/

/-- **C6 (counterexample).** Tick with two eligible media `A` and `B`
where inserting `A`'s batch fails: the workflow records the error and
returns, so nothing is inserted — in particular `B` is *not* processed in
this tick, refuting the claim that the other eligible media still are. -/
theorem c6_counterexample :
    (mediaEmbeddingExecute "media-embedding-generator" "m" (fun _ => [[1]]) exPutFailA
        (.ok [exMediaA, exMediaB]) { insertedBatches := [], errors := [] }).insertedBatches
      = [] ∧
    (mediaEmbeddingExecute "media-embedding-generator" "m" (fun _ => [[1]]) exPutFailA
        (.ok [exMediaA, exMediaB]) { insertedBatches := [], errors := [] }).errors
      = [("media-embedding-generator", "insert failed")] ∧
    ¬ ∃ batch ∈ (mediaEmbeddingExecute "media-embedding-generator" "m" (fun _ => [[1]])
        exPutFailA (.ok [exMediaA, exMediaB])
        { insertedBatches := [], errors := [] }).insertedBatches,
      ∃ emb ∈ batch, emb.mediaId = "B" := by
  decide

/-- **C6 (amended).** If inserting the batch of the `i`-th eligible Media
fails while the earlier batches succeeded, the tick inserts exactly the
batches of media `0 … i-1` (each Media its own batch, nothing of the
failed Media is written), records the `Put` error under the workflow's
name, and returns — the media after `i` are not processed in this tick
(they are still missing embeddings, so the next tick's query re-selects
them). -/
theorem c6_put_failure_stops_tick (name modelName : String)
    (embedFn : String → List (List Int))
    (putResult : List SceneEmbedding → Option String)
    (medias : List Media) (st : EmbedWorkflowState) (i : ℕ) (m : Media) (e : String)
    (hm : medias[i]? = some m)
    (hok : ∀ (j : ℕ) (mj : Media), j < i → medias[j]? = some mj →
      putResult (mediaBatch modelName embedFn mj) = none)
    (hfail : putResult (mediaBatch modelName embedFn m) = some e) :
    mediaEmbeddingExecute name modelName embedFn putResult (.ok medias) st =
      { insertedBatches :=
          st.insertedBatches ++ (medias.take i).map (mediaBatch modelName embedFn),
        errors := putAssoc st.errors name e } := by
  simp only [mediaEmbeddingExecute]
  induction medias generalizing st i with
  | nil => simp at hm
  | cons m0 rest ih =>
    cases i with
    | zero =>
      simp only [List.getElem?_cons_zero, Option.some.injEq] at hm
      subst hm
      simp [mediaEmbeddingLoop, hfail]
    | succ j =>
      have hm2 : rest[j]? = some m := by simpa using hm
      have hok2 : ∀ (j2 : ℕ) (mj : Media), j2 < j → rest[j2]? = some mj →
          putResult (mediaBatch modelName embedFn mj) = none := by
        intro j2 mj hj2 hmj
        exact hok (j2 + 1) mj (by omega) (by simpa using hmj)
      have h0 : putResult (mediaBatch modelName embedFn m0) = none :=
        hok 0 m0 (Nat.succ_pos j) (by simp)
      simp only [mediaEmbeddingLoop, h0]
      rw [ih _ j hm2 hok2]
      simp [List.append_assoc]

/-! ### Claim C9 -/

theorem putAssoc_putAssoc_same {α : Type} (m : List (String × α)) (k : String) (v w : α) :
    putAssoc (putAssoc m k v) k w = putAssoc m k w := by
  induction m with
  | nil => simp [putAssoc]
  | cons hd tl ih =>
    obtain ⟨k0, v0⟩ := hd
    by_cases h : k0 = k <;> simp [putAssoc, h, ih]

/-- Folding `AddError` with a fixed key over a list of errors leaves only
the last error under that key (the error map holds one entry per key). -/
theorem foldl_putAssoc_last {α : Type} (k : String) (es : List α) (m : List (String × α)) :
    es.foldl (fun acc e => putAssoc acc k e) m =
      match es.getLast? with
      | none => m
      | some e => putAssoc m k e := by
  induction es generalizing m with
  | nil => rfl
  | cons e tl ih =>
    cases tl with
    | nil => simp [ih]
    | cons e2 tl2 =>
      rw [List.foldl_cons, ih, List.getLast?_cons_cons]
      cases hl : (e2 :: tl2).getLast? with
      | none => simp at hl
      | some e3 => simp [putAssoc_putAssoc_same]

theorem aggregate_sceneData (name : String) (resps : List SceneResponse)
    (st : ExtractorState) :
    (aggregateResults name resps st).sceneData =
      st.sceneData ++ resps.filterMap (fun r => if r.err = none then some r.value else none) := by
  induction resps generalizing st with
  | nil => simp [aggregateResults]
  | cons r rest ih =>
    cases hr : r.err with
    | some e => simp [aggregateResults, hr, ih]
    | none => simp [aggregateResults, hr, ih]

theorem aggregate_errors (name : String) (resps : List SceneResponse)
    (st : ExtractorState) :
    (aggregateResults name resps st).errors =
      (resps.filterMap SceneResponse.err).foldl (fun acc e => putAssoc acc name e)
        st.errors := by
  induction resps generalizing st with
  | nil => simp [aggregateResults]
  | cons r rest ih =>
    cases hr : r.err with
    | some e => simp [aggregateResults, hr, ih]
    | none => simp [aggregateResults, hr, ih]

theorem aggregate_errorCount (name : String) (resps : List SceneResponse)
    (st : ExtractorState) :
    (aggregateResults name resps st).errorCount =
      st.errorCount + (resps.filterMap SceneResponse.err).length := by
  induction resps generalizing st with
  | nil => simp [aggregateResults]
  | cons r rest ih =>
    cases hr : r.err with
    | some e => simp [aggregateResults, hr, ih]; omega
    | none => simp [aggregateResults, hr, ih]

/-- The error responses a worker emits are exactly the job/model errors,
in order. -/
theorem sceneWorker_err (outcomes : List JobOutcome) :
    (sceneWorker outcomes).filterMap SceneResponse.err = workerErrors outcomes := by
  induction outcomes with
  | nil => rfl
  | cons o rest ih =>
    cases o with
    | jobFailed e => simp [sceneWorker, workerErrors, ih]
    | modelError e => simp [sceneWorker, workerErrors, ih]
    | modelOut s =>
      by_cases hs : 0 < s.trim.length ∧ s ≠ "{}" <;>
        simp [sceneWorker, workerErrors, hs, ih]

/-- The success responses a worker emits carry exactly the filter-passing
model outputs, in order. -/
theorem sceneWorker_success (outcomes : List JobOutcome) :
    (sceneWorker outcomes).filterMap
        (fun r => if r.err = none then some r.value else none) =
      keptSceneData outcomes := by
  induction outcomes with
  | nil => rfl
  | cons o rest ih =>
    cases o with
    | jobFailed e => simp [sceneWorker, keptSceneData, ih]
    | modelError e => simp [sceneWorker, keptSceneData, ih]
    | modelOut s =>
      by_cases hs : 0 < s.trim.length ∧ s ≠ "{}" <;>
        simp [sceneWorker, keptSceneData, hs, ih]

/-- **C9 (counterexample).** Two workers error with distinct errors `e1`
and `e2`: the pipeline's error map, keyed by the extractor step's name,
holds only the last-processed error `e2` — `e1` was overwritten — refuting
the claim that *every* worker error is recorded in the error map. -/
theorem c9_counterexample :
    (sceneExtractorExecute "scene-extractor"
        [.modelError "e1", .modelError "e2"]).errors = [("scene-extractor", "e2")] ∧
    ("scene-extractor", "e1") ∉
      (sceneExtractorExecute "scene-extractor"
        [.modelError "e1", .modelError "e2"]).errors := by
  decide

/-- **C9 (amended).** The aggregated scene-data list contains exactly the
worker results that are non-empty after trimming and not the literal
`"{}"`, in order; every worker error bumps the extractor's error counter
and triggers an `AddError` keyed by the extractor step's name, but since
the error map holds one entry per key, after the run the map holds exactly
the last-processed worker error under that name (and nothing when no
worker errored). -/
theorem c9_scene_aggregation (name : String) (outcomes : List JobOutcome) :
    (sceneExtractorExecute name outcomes).sceneData = keptSceneData outcomes ∧
    (sceneExtractorExecute name outcomes).errorCount = (workerErrors outcomes).length ∧
    (sceneExtractorExecute name outcomes).errors =
      match (workerErrors outcomes).getLast? with
      | none => []
      | some e => [(name, e)] := by
  have hs : (aggregateResults name (sceneWorker outcomes)
      { sceneData := [], errors := [], errorCount := 0, successCount := 0 }).sceneData =
      keptSceneData outcomes := by
    rw [aggregate_sceneData, sceneWorker_success]
    simp
  have hc : (aggregateResults name (sceneWorker outcomes)
      { sceneData := [], errors := [], errorCount := 0, successCount := 0 }).errorCount =
      (workerErrors outcomes).length := by
    rw [aggregate_errorCount, sceneWorker_err]
    simp
  have he : (aggregateResults name (sceneWorker outcomes)
      { sceneData := [], errors := [], errorCount := 0, successCount := 0 }).errors =
      (match (workerErrors outcomes).getLast? with
        | none => ([] : List (String × String))
        | some e => [(name, e)]) := by
    rw [aggregate_errors, sceneWorker_err, foldl_putAssoc_last]
    cases (workerErrors outcomes).getLast? <;> rfl
  have hgoal : sceneExtractorExecute name outcomes =
      if (aggregateResults name (sceneWorker outcomes)
          { sceneData := [], errors := [], errorCount := 0, successCount := 0 }).errors.isEmpty
      then { aggregateResults name (sceneWorker outcomes)
              { sceneData := [], errors := [], errorCount := 0, successCount := 0 } with
             successCount := (aggregateResults name (sceneWorker outcomes)
              { sceneData := [], errors := [], errorCount := 0,
                successCount := 0 }).successCount + 1 }
      else aggregateResults name (sceneWorker outcomes)
        { sceneData := [], errors := [], errorCount := 0, successCount := 0 } := rfl
  rw [hgoal]
  by_cases hE : (aggregateResults name (sceneWorker outcomes)
      { sceneData := [], errors := [], errorCount := 0, successCount := 0 }).errors.isEmpty
  · rw [if_pos hE]
    exact ⟨hs, hc, he⟩
  · rw [if_neg hE]
    exact ⟨hs, hc, he⟩

/-! ### Claim C10 -/

/-- Row iteration yields a non-nil error exactly when some row outcome is
an error. -/
theorem iterateRows_err_iff (rows : List (Except String SceneMatchResult)) :
    (iterateRows rows).2 ≠ none ↔ ∃ e, Except.error e ∈ rows := by
  induction rows with
  | nil => simp [iterateRows]
  | cons r rest ih =>
    cases r with
    | ok v => simp [iterateRows, ih]
    | error e =>
      simp [iterateRows]

/-- **C10 (counterexample).** A failed `EmbedContent` with a perfectly
healthy BigQuery backend: `FindScenes` panics on the nil response at
`searchEmbeddings.Embeddings[0].Values` — with the fatal print never
having run — and never returns, so it does *not* proceed to build and run
the vector-search query as the claim states. -/
theorem c10_counterexample :
    findScenes (.error "embed down")
        (.ok [.ok { mediaId := "m1", sequenceNumber := 1 }]) =
      .panicked false
        "runtime error: invalid memory address or nil pointer dereference" ∧
    ¬ ∃ r : FindScenesResult,
        findScenes (.error "embed down")
            (.ok [.ok { mediaId := "m1", sequenceNumber := 1 }]) = .returned r :=
  ⟨rfl, fun ⟨_, h⟩ => FindScenesOutcome.noConfusion h⟩

/-- **C10 (amended).** If the embedding call fails, `FindScenes` does not
return that error — the check after `EmbedContent` inspects the named
return `err`, always nil at that point, so the fatal print never runs —
but it does not run the vector search either: whatever the BigQuery
backend would answer, the nil response makes it panic at
`searchEmbeddings.Embeddings[0]` before the query is built.  When the
embedding call succeeds with at least one embedding, `FindScenes` proceeds
and returns, with the fatal print still never run, a non-nil error exactly
when the BigQuery read fails or the row iteration fails. -/
theorem c10_embed_failure_panics (e : String) (v : List Int) (tl : List (List Int))
    (queryRead : Except String (List (Except String SceneMatchResult)))
    (rows : List (Except String SceneMatchResult)) :
    findScenes (.error e) queryRead =
      .panicked false
        "runtime error: invalid memory address or nil pointer dereference" ∧
    findScenes (.ok (v :: tl)) (.error e) =
      .returned { out := [],
                  err := some ("failed to read from BigQuery: " ++ e),
                  printedFatal := false } ∧
    findScenes (.ok (v :: tl)) (.ok rows) =
      .returned { out := (iterateRows rows).1,
                  err := (iterateRows rows).2,
                  printedFatal := false } ∧
    ((iterateRows rows).2 ≠ none ↔ ∃ e2, Except.error e2 ∈ rows) :=
  ⟨rfl, rfl, rfl, iterateRows_err_iff rows⟩

/-- Witness for `c6_put_failure_stops_tick` at the concrete two-media
tick whose first insert fails. -/
theorem c6_put_failure_stops_tick_witness :
    mediaEmbeddingExecute "media-embedding-generator" "m" (fun _ => [[1]]) exPutFailA
        (.ok [exMediaA, exMediaB]) { insertedBatches := [], errors := [] } =
      { insertedBatches :=
          [] ++ (([exMediaA, exMediaB].take 0).map (mediaBatch "m" (fun _ => [[1]]))),
        errors := putAssoc [] "media-embedding-generator" "insert failed" } :=
  c6_put_failure_stops_tick "media-embedding-generator" "m" (fun _ => [[1]]) exPutFailA
    [exMediaA, exMediaB] { insertedBatches := [], errors := [] } 0 exMediaA "insert failed"
    (by decide) (fun j mj hj _ => absurd hj (Nat.not_lt_zero j)) (by decide)

end MediaSearch
